import Mathlib

/-!
Shallow embedding of the `model_serializer` Go package
(`src/model_serializer.go`) and verification of its specification.

Go values reachable through `reflect` are modelled by the inductive
`GoVal`; the nilable kinds (pointer, slice, map) carry an `Option` whose
`none` case is the Go `nil` of that kind.  `GoVal.vnil` is the untyped
`nil` interface value (a zero `reflect.Value`).  Panics raised by the
package or by `reflect` are modelled as `Except.error` with a `SerErr`
code; in-place mutation is modelled by returning the updated value.
-/

set_option autoImplicit false

namespace ModelSerializer

/-- Metadata of one struct field: its Go name and its `json` tag
(`none` when the struct declares no `json` tag for the field). -/
structure FieldMeta where
  name : String
  tag : Option String
deriving DecidableEq, Repr

/-- A Go value as seen through `reflect`.  `vptr none`, `vslice none` and
`vmap none` are the typed nil pointer / slice / map; `vnil` is the untyped
nil interface (an invalid `reflect.Value`). -/
inductive GoVal where
  | vstr (s : String)
  | vint (n : Int)
  | vbool (b : Bool)
  | vptr (v : Option GoVal)
  | vstruct (fields : List (FieldMeta × GoVal))
  | vslice (elems : Option (List GoVal))
  | varr (elems : List GoVal)
  | vmap (entries : Option (List (String × GoVal)))
  | vnil
deriving Repr

/-- Panics that the package (or the `reflect` calls it makes) can raise. -/
inductive SerErr where
  /-- `panic(fmt.Sprintf('Field "%s" has no json tag', name))` in
  `getSerializedName`. -/
  | missingJsonTag (field : String)
  /-- `panic("Undefined type for serializer. Need to implement it")` in the
  nested-field kind switch. -/
  | undefinedType
  /-- `panic("Undefined func type for serializer.")` for a func spec entry
  that is not a `FieldSerializer`. -/
  | undefinedFuncType
  /-- Runtime panic of the failed type assertion
  `name.(map[string][]interface ...)` in the default branch. -/
  | badSpecEntry
  /-- `reflect.Value.IsNil` panic: the value's kind is not nilable, or the
  value is a zero `reflect.Value`. -/
  | isNilPanic
  /-- `reflect.Value.Elem` panic: the value is not a pointer or interface. -/
  | elemPanic
  /-- `reflect` panic from using a struct-only operation (`FieldByName`,
  `NumField`) on a non-struct value. -/
  | nonStruct
deriving DecidableEq, Repr

/-- The panic message carried by each error, as the Go code produces it. -/
def errMessage : SerErr → String
  | .missingJsonTag f => "Field \"" ++ f ++ "\" has no json tag"
  | .undefinedType => "Undefined type for serializer. Need to implement it"
  | .undefinedFuncType => "Undefined func type for serializer."
  | .badSpecEntry => "interface conversion: interface is not map[string][]interface"
  | .isNilPanic => "reflect: call of reflect.Value.IsNil on invalid kind"
  | .elemPanic => "reflect: call of reflect.Value.Elem on invalid kind"
  | .nonStruct => "reflect: call of struct field operation on non-struct value"

/-- One element of the `fields []interface ...` argument of `Serialize`.
`leaf` is a field-name string; `fserializer` is a `FieldSerializer`
callback; `badFunc` is a func value of any other func type; `nested` is a
`map[string][]interface ...` value (modelled as its list of entries, in the
iteration order of the Go map); `unknown` is any value of another type. -/
inductive SpecEntry where
  | leaf (name : String)
  | fserializer (f : GoVal → String × GoVal)
  | badFunc
  | nested (pairs : List (String × List SpecEntry))
  | unknown

/-- A value stored in a serialization result map: a plain Go value (leaf or
callback result), a nested result map, or a slice of result maps. -/
inductive ResVal where
  | prim (v : GoVal)
  | obj (m : List (String × ResVal))
  | arr (l : List ResVal)
deriving Repr

/-- The `map[string]interface ...` result of `Serialize`, modelled as an
association list in insertion order. -/
abbrev ProjRes := List (String × ResVal)

/-- Go map assignment `m[k] = v`: replace the entry if the key is present,
otherwise append it. -/
def mapSet (m : ProjRes) (k : String) (v : ResVal) : ProjRes :=
  if m.any (fun p => p.1 == k) then
    m.map (fun p => if p.1 == k then (k, v) else p)
  else
    m ++ [(k, v)]

/-- Lookup in a result map. -/
def mapGet (m : ProjRes) (k : String) : Option ResVal :=
  (m.find? (fun p => p.1 == k)).map Prod.snd

/-- `reflect.Value.IsNil`: defined for the nilable kinds, a panic for every
other kind and for the zero `reflect.Value` (`vnil`). -/
def goIsNil : GoVal → Except SerErr Bool
  | .vptr o => .ok o.isNone
  | .vslice o => .ok o.isNone
  | .vmap o => .ok o.isNone
  | _ => .error .isNilPanic

/-- `reflect.Value.Elem` on the value of `reflect.ValueOf(model)`: yields
the pointee of a non-nil pointer and panics on every non-pointer kind.
(`Serialize` only reaches it after `IsNil` returned `false`.) -/
def goElem : GoVal → Except SerErr GoVal
  | .vptr (some v) => .ok v
  | _ => .error .elemPanic

/-- `reflect.Value.FieldByName` / `reflect.Type.FieldByName`: the first
field with the given name, `none` when the struct has no such field. -/
def fieldByName (fs : List (FieldMeta × GoVal)) (name : String) : Option (FieldMeta × GoVal) :=
  fs.find? (fun p => p.1.name == name)

/-- `getSerializedName`: the `json` tag of the field, panicking with the
field's name when the tag is missing. -/
def getSerializedName (structField : FieldMeta) : Except SerErr String :=
  match structField.tag with
  | some val => .ok val
  | none => .error (.missingJsonTag structField.name)

/-- `containsField`: linear search of a name in the `fields` array. -/
def containsField (field : String) : List String → Bool
  | [] => false
  | v :: rest => if field == v then true else containsField field rest

/-- `serializeStrField`: resolve the field and its tag, then store the
field's value under the tag.  A `FieldByName` miss yields the zero
`reflect.StructField`, whose empty name has no tag, so the panic message
carries the empty string. -/
def serializeStrField (structValue : List (FieldMeta × GoVal)) (fieldName : String)
    (targetMap : ProjRes) : Except SerErr ProjRes :=
  match fieldByName structValue fieldName with
  | some (m, v) => (getSerializedName m).map (fun sn => mapSet targetMap sn (.prim v))
  | none => .error (.missingJsonTag "")

mutual

/-- `Serialize`: nil-check the model, dereference it, then fold the spec
entries over an initially empty result map. -/
def Serialize (model : GoVal) (fields : List SpecEntry) : Except SerErr ProjRes := do
  let isNil ← goIsNil model
  if isNil then
    return []
  let elem ← goElem model
  serializeEntries model elem fields []
termination_by (sizeOf fields, 3, 0)

/-- The `for _, name := range fields` loop of `Serialize`, threading the
result map. -/
def serializeEntries (model : GoVal) (elem : GoVal) (entries : List SpecEntry)
    (result : ProjRes) : Except SerErr ProjRes :=
  match entries with
  | [] => .ok result
  | name :: rest => do
    let result2 ← serializeEntry model elem name result
    serializeEntries model elem rest result2
termination_by (sizeOf entries, 2, 0)

/-- The `switch reflect.ValueOf(name).Kind()` dispatch on one spec entry. -/
def serializeEntry (model : GoVal) (elem : GoVal) (entry : SpecEntry)
    (result : ProjRes) : Except SerErr ProjRes :=
  match entry with
  | .leaf s =>
    match elem with
    | .vstruct fs => serializeStrField fs s result
    | _ => .error .nonStruct
  | .fserializer f =>
    let (fieldName, value) := f model
    .ok (mapSet result fieldName (.prim value))
  | .badFunc => .error .undefinedFuncType
  | .nested pairs =>
    match elem with
    | .vstruct fs => serializeNestedPairs fs pairs result
    | _ => .error .nonStruct
  | .unknown => .error .badSpecEntry
termination_by (sizeOf entry, 1, 0)

/-- The `for fieldNameStr, mapFields := range name.(map[string][]...)` loop
of the default branch: resolve tag and field value, then dispatch on the
field's kind (slice, array, pointer, struct; anything else panics). -/
def serializeNestedPairs (fs : List (FieldMeta × GoVal))
    (pairs : List (String × List SpecEntry)) (result : ProjRes) : Except SerErr ProjRes :=
  match pairs with
  | [] => .ok result
  | (fieldNameStr, mapFields) :: restPairs => do
    let fieldType :=
      match fieldByName fs fieldNameStr with
      | some p => p.1
      | none => FieldMeta.mk "" none
    let serializedName ← getSerializedName fieldType
    let fieldValue :=
      match fieldByName fs fieldNameStr with
      | some p => p.2
      | none => GoVal.vnil
    let result2 ←
      match fieldValue with
      | .vslice elems => serializeArrayField (elems.getD []) serializedName mapFields result
      | .varr elems => serializeArrayField elems serializedName mapFields result
      | .vptr p => do
        let sub ← Serialize (.vptr p) mapFields
        pure (mapSet result serializedName (.obj sub))
      | .vstruct sfs => do
        let sub ← Serialize (.vptr (some (.vstruct sfs))) mapFields
        pure (mapSet result serializedName (.obj sub))
      | _ => .error .undefinedType
    serializeNestedPairs fs restPairs result2
termination_by (sizeOf pairs, 0, 0)

/-- The element loop of `serializeArrayField`: serialize each element of
the slice or array with the child spec. -/
def serializeElems (elems : List GoVal) (fields : List SpecEntry) :
    Except SerErr (List ProjRes) :=
  match elems with
  | [] => .ok []
  | e :: rest => do
    let r ← Serialize e fields
    let rs ← serializeElems rest fields
    pure (r :: rs)
termination_by (sizeOf fields, 4, sizeOf elems)

/-- `serializeArrayField`: build the `[]interface ...` of per-element
results and store it under the field's wire name. -/
def serializeArrayField (elems : List GoVal) (fieldName : String)
    (fields : List SpecEntry) (targetMap : ProjRes) : Except SerErr ProjRes := do
  let serializedContainer ← serializeElems elems fields
  pure (mapSet targetMap fieldName (.arr (serializedContainer.map ResVal.obj)))
termination_by (sizeOf fields, 5, sizeOf elems)

end

/-- `SerializeList`: serialize every element of the slice in order. -/
def SerializeList (models : List GoVal) (fields : List SpecEntry) :
    Except SerErr (List ProjRes) :=
  match models with
  | [] => .ok []
  | m :: rest => do
    let r ← Serialize m fields
    let rs ← SerializeList rest fields
    pure (r :: rs)

/-- `reflect.Zero(field.Type())` for the field kinds that `FilterFields`
can actually reach with `Set` (the nilable ones, since `IsNil` has already
succeeded on the field): the typed nil of the kind. -/
def goZero : GoVal → GoVal
  | .vptr _ => .vptr none
  | .vslice _ => .vslice none
  | .vmap _ => .vmap none
  | v => v

/-- The field loop of `FilterFields`: `field.IsNil()` first (panicking on
any non-nilable field), then zero the field when it is non-nil and its name
is not in the allow list. -/
def filterFieldsLoop (fs : List (FieldMeta × GoVal)) (fields : List String) :
    Except SerErr (List (FieldMeta × GoVal)) :=
  match fs with
  | [] => .ok []
  | (m, v) :: rest => do
    let isNil ← goIsNil v
    let v2 := if !isNil && !containsField m.name fields then goZero v else v
    let rest2 ← filterFieldsLoop rest fields
    pure ((m, v2) :: rest2)

/-- `FilterFields`: dereference the model pointer and run the field loop,
returning the mutated model. -/
def FilterFields (model : GoVal) (fields : List String) : Except SerErr GoVal := do
  let modelValue ← goElem model
  match modelValue with
  | .vstruct fs => do
    let fs2 ← filterFieldsLoop fs fields
    pure (GoVal.vptr (some (.vstruct fs2)))
  | _ => .error .nonStruct

/-- `isNilInterface`: true for the untyped nil interface and for a typed
nil pointer; false for everything else (including nil slices and maps,
whose kind is not `Ptr`). -/
def isNilInterface : GoVal → Bool
  | .vnil => true
  | .vptr none => true
  | _ => false

/-- `FilterMapFields`: delete every entry whose key is not in the allow
list or whose value is a nil interface; equivalently, keep the others. -/
def FilterMapFields (mapData : List (String × GoVal)) (fields : List String) :
    List (String × GoVal) :=
  mapData.filter (fun kv => !(!containsField kv.1 fields || isNilInterface kv.2))

/-- A Go value's kind is nilable (pointer, slice or map) exactly when
`reflect.Value.IsNil` does not panic on it. -/
def nilableKind : GoVal → Bool
  | .vptr _ => true
  | .vslice _ => true
  | .vmap _ => true
  | _ => false

/-- The field kinds accepted by the nested-field switch of `Serialize`:
slice, array, pointer and struct. -/
def nestedKindSupported : GoVal → Bool
  | .vslice _ => true
  | .varr _ => true
  | .vptr _ => true
  | .vstruct _ => true
  | _ => false

/-- The spec's `UnknownSpecEntry` violation class: the two panics raised
when a spec entry is none of the three recognized shapes (the failed map
type assertion, and the non-`FieldSerializer` func panic). -/
def isUnknownSpecEntryErr : SerErr → Bool
  | .badSpecEntry => true
  | .undefinedFuncType => true
  | _ => false

/-! ### Helper lemmas -/

theorem mapSet_no_key (m : ProjRes) (k : String) (v : ResVal)
    (h : m.any (fun p => p.1 == k) = false) : mapSet m k v = m ++ [(k, v)] := by
  simp [mapSet, h]

theorem mapGet_of_mem (m : ProjRes) (k : String) (v : ResVal)
    (hnd : (m.map Prod.fst).Nodup) (hm : (k, v) ∈ m) : mapGet m k = some v := by
  induction m with
  | nil => cases hm
  | cons p rest ih =>
    simp only [List.map_cons, List.nodup_cons] at hnd
    rcases List.mem_cons.mp hm with h | h
    · subst h
      simp [mapGet, List.find?]
    · have hne : p.1 ≠ k := by
        intro hkeq
        exact hnd.1 (hkeq ▸ (List.mem_map.mpr ⟨(k, v), h, rfl⟩))
      have := ih hnd.2 h
      simpa [mapGet, List.find?, beq_false_of_ne hne] using this

theorem serializeEntries_leaves (model : GoVal) (flds : List (FieldMeta × GoVal)) :
    ∀ (entries : List (String × String × GoVal)) (acc : ProjRes),
    (∀ e ∈ entries, fieldByName flds e.1 = some (⟨e.1, some e.2.1⟩, e.2.2)) →
    (∀ e ∈ entries, acc.any (fun p => p.1 == e.2.1) = false) →
    (entries.map (fun e => e.2.1)).Nodup →
    serializeEntries model (.vstruct flds) (entries.map (fun e => .leaf e.1)) acc
      = .ok (acc ++ entries.map (fun e => (e.2.1, .prim e.2.2)))
  | [], acc, _, _, _ => by simp [serializeEntries]
  | e :: rest, acc, h, hacc, hnd => by
    have he := h e (List.mem_cons_self _ _)
    have hacce := hacc e (List.mem_cons_self _ _)
    simp only [List.map_cons, List.nodup_cons] at hnd ⊢
    rw [serializeEntries]
    simp only [serializeEntry, serializeStrField, he, getSerializedName,
      Bind.bind, Except.bind, Except.map]
    rw [mapSet_no_key _ _ _ hacce]
    have hacc2 : ∀ q ∈ rest,
        ((acc ++ [(e.2.1, ResVal.prim e.2.2)]).any (fun p => p.1 == q.2.1)) = false := by
      intro q hq
      have h1 := hacc q (List.mem_cons_of_mem _ hq)
      have h2 : e.2.1 ≠ q.2.1 := by
        intro hqe
        exact hnd.1 (hqe ▸ List.mem_map.mpr ⟨q, hq, rfl⟩)
      simp [List.any_append, h1, h2]
    have hrest := serializeEntries_leaves model flds rest (acc ++ [(e.2.1, ResVal.prim e.2.2)])
      (fun q hq => h q (List.mem_cons_of_mem _ hq)) hacc2 hnd.2
    rw [hrest, List.append_assoc]
    simp

theorem serializeElems_pointwise (es : List GoVal) (child : List SpecEntry)
    (rs : List ProjRes) (h : serializeElems es child = .ok rs) :
    rs.length = es.length ∧
      ∀ i, i < es.length → Serialize (es.getD i GoVal.vnil) child = .ok (rs.getD i []) := by
  induction es generalizing rs with
  | nil =>
    rw [serializeElems] at h
    cases h
    simp
  | cons e rest ih =>
    rw [serializeElems] at h
    cases hr : Serialize e child with
    | error err => simp [hr, Bind.bind, Except.bind] at h
    | ok r0 =>
      cases hrest : serializeElems rest child with
      | error err => simp [hr, hrest, Bind.bind, Except.bind] at h
      | ok rrest =>
        simp [hr, hrest, Bind.bind, Except.bind, Pure.pure, Except.pure] at h
        subst h
        obtain ⟨hlen, hpt⟩ := ih rrest hrest
        refine ⟨by simp [hlen], ?_⟩
        intro i hi
        cases i with
        | zero => simpa using hr
        | succ j =>
          simp only [List.getD_cons_succ]
          exact hpt j (by simpa using hi)

/-! ### Claim theorems -/

/-- C2: for every specification list `s`, `Serialize` applied to a nil
(typed, absent) pointer handle returns the empty result map and no error:
`val.IsNil()` is true, so the freshly made empty map is returned before any
spec entry is inspected. -/
theorem serialize_nil_handle_empty (s : List SpecEntry) :
    Serialize (GoVal.vptr none) s = .ok [] := by
  simp [Serialize, goIsNil, Bind.bind, Except.bind, Pure.pure, Except.pure]

/-- C5: `FilterMapFields` keeps exactly the entries whose key is in the
allow list and whose value is not a nil interface (untyped nil or typed nil
pointer), with the retained entries - keys and values - unchanged from the
original map.  Membership of an unchanged `(key, value)` pair states both
the key-set post-condition and value preservation. -/
theorem filterMapFields_membership (m : List (String × GoVal)) (allow : List String)
    (kv : String × GoVal) :
    kv ∈ FilterMapFields m allow ↔
      kv ∈ m ∧ containsField kv.1 allow = true ∧ isNilInterface kv.2 = false := by
  simp [FilterMapFields, List.mem_filter, and_assoc]

/-- C8: a spec entry that is none of the three recognized shapes fails: an
entry of non-string, non-func, non-map type makes the type assertion
`name.(map[string][]interface ...)` panic, and a func entry that is not a
`FieldSerializer` hits `panic("Undefined func type for serializer.")`; both
panics form the spec's `UnknownSpecEntry` violation class. -/
theorem serialize_unknown_entry_errors (flds : List (FieldMeta × GoVal))
    (rest : List SpecEntry) :
    Serialize (.vptr (some (.vstruct flds))) (.unknown :: rest) = .error .badSpecEntry
    ∧ Serialize (.vptr (some (.vstruct flds))) (.badFunc :: rest) = .error .undefinedFuncType
    ∧ isUnknownSpecEntryErr .badSpecEntry = true
    ∧ isUnknownSpecEntryErr .undefinedFuncType = true := by
  refine ⟨?_, ?_, rfl, rfl⟩ <;>
    simp [Serialize, goIsNil, goElem, serializeEntries, serializeEntry,
      Bind.bind, Except.bind, Pure.pure, Except.pure]

/-- C6 (theorem): a Leaf spec entry naming a field that exists but carries
no `json` tag makes `Serialize` fail with the missing-tag panic, whose
message is the canonical form carrying the offending field's name. -/
theorem serialize_leaf_missing_tag (flds : List (FieldMeta × GoVal)) (n : String)
    (v : GoVal) (rest : List SpecEntry)
    (h : fieldByName flds n = some (⟨n, none⟩, v)) :
    Serialize (.vptr (some (.vstruct flds))) (.leaf n :: rest)
      = .error (.missingJsonTag n)
    ∧ errMessage (.missingJsonTag n) = "Field \"" ++ n ++ "\" has no json tag" := by
  refine ⟨?_, rfl⟩
  simp [Serialize, goIsNil, goElem, serializeEntries, serializeEntry, serializeStrField,
    h, getSerializedName, Bind.bind, Except.bind, Pure.pure, Except.pure, Except.map]

/-- C6 (witness): the scenario of `TestSerializeFieldWithoutTag`: a struct
whose only field `Field1` has no `json` tag. -/
theorem serialize_leaf_missing_tag_witness :
    Serialize (.vptr (some (.vstruct [(⟨"Field1", none⟩, .vstr "foo")]))) [.leaf "Field1"]
      = .error (.missingJsonTag "Field1")
    ∧ errMessage (.missingJsonTag "Field1") = "Field \"" ++ "Field1" ++ "\" has no json tag" :=
  serialize_leaf_missing_tag [(⟨"Field1", none⟩, .vstr "foo")] "Field1" (.vstr "foo") []
    (by simp [fieldByName, List.find?])

/-- C10 (counterexample): the graceful empty-result path is not restricted
to pointer models.  A nil slice model (e.g. `[]int(nil)`) is not a pointer,
yet `val.IsNil()` succeeds and returns true, so `Serialize` returns the
empty map instead of aborting at the nil check. -/
theorem serialize_nil_slice_model_ok :
    Serialize (GoVal.vslice none) [.leaf "X"] = .ok [] := by
  simp [Serialize, goIsNil, Bind.bind, Except.bind, Pure.pure, Except.pure]

/-- C10 (amended theorem): the nil check `val.IsNil()` itself panics
exactly when the model is of non-nilable kind (a struct passed by value, a
primitive, a fixed-length array) or is the untyped nil interface (a zero
`reflect.Value`); for those models `Serialize` aborts before reading any
spec entry. -/
theorem serialize_non_nilable_model_panics (v : GoVal) (s : List SpecEntry)
    (h : nilableKind v = false) :
    Serialize v s = .error .isNilPanic := by
  cases v <;>
    simp_all [Serialize, goIsNil, nilableKind, Bind.bind, Except.bind, Pure.pure, Except.pure]

/-- C10 (witness): a record passed by value aborts at the nil check. -/
theorem serialize_non_nilable_model_panics_witness :
    Serialize (.vstruct [(⟨"Field1", some "field1"⟩, .vstr "foo")]) [.leaf "Field1"]
      = .error .isNilPanic :=
  serialize_non_nilable_model_panics
    (.vstruct [(⟨"Field1", some "field1"⟩, .vstr "foo")]) [.leaf "Field1"] (by decide)

/-- C1 (counterexample): a record with a field of non-nilable kind (an
`int` field) is not left untouched by `FilterFields`: the unconditional
`field.IsNil()` call panics on it, even when the field's name is in the
allow list. -/
theorem filterFields_panics_on_non_nilable_field :
    FilterFields (.vptr (some (.vstruct [(⟨"Field1", some "field1"⟩, .vint 5)]))) ["Field1"]
      = .error .isNilPanic := by
  simp [FilterFields, filterFieldsLoop, goElem, goIsNil,
    Bind.bind, Except.bind, Pure.pure, Except.pure]

/-- C1 (amended theorem): for a record all of whose fields are of nilable
kind, `FilterFields` resets every field whose name is not in the allow list
to the nil value of its kind and keeps every field whose name is in the
allow list unchanged.  (A field that is already nil stays nil, which is its
zero value.) -/
theorem filterFields_all_nilable_spec (flds : List (FieldMeta × GoVal)) (allow : List String)
    (h : ∀ p ∈ flds, nilableKind p.2 = true) :
    FilterFields (.vptr (some (.vstruct flds))) allow
      = .ok (.vptr (some (.vstruct (flds.map (fun p =>
          (p.1, if containsField p.1.name allow then p.2 else goZero p.2)))))) := by
  have key : ∀ fs : List (FieldMeta × GoVal), (∀ p ∈ fs, nilableKind p.2 = true) →
      filterFieldsLoop fs allow = .ok (fs.map (fun p =>
        (p.1, if containsField p.1.name allow then p.2 else goZero p.2))) := by
    intro fs hfs
    induction fs with
    | nil => simp [filterFieldsLoop]
    | cons p rest ih =>
      have hp : nilableKind p.2 = true := hfs p (by simp)
      have hih := ih (fun q hq => hfs q (List.mem_cons_of_mem p hq))
      obtain ⟨m, v⟩ := p
      cases v <;> simp_all [filterFieldsLoop, goIsNil, goZero, nilableKind,
        Bind.bind, Except.bind, Pure.pure, Except.pure] <;>
        rcases containsField m.name allow with _ | _ <;> simp_all
  simp [FilterFields, goElem, key flds h, Bind.bind, Except.bind, Pure.pure, Except.pure]

/-- C1 (witness): the scenario of `TestFilterFields`: two pointer fields,
allow list `["Field2"]`; `Field1` becomes nil, `Field2` is unchanged. -/
theorem filterFields_all_nilable_spec_witness :
    FilterFields (.vptr (some (.vstruct
        [(⟨"Field1", some "field1"⟩, .vptr (some (.vstr "foo"))),
         (⟨"Field2", some "field2"⟩, .vptr (some (.vint 42)))]))) ["Field2"]
      = .ok (.vptr (some (.vstruct
        [(⟨"Field1", some "field1"⟩, .vptr none),
         (⟨"Field2", some "field2"⟩, .vptr (some (.vint 42)))]))) := by
  have := filterFields_all_nilable_spec
    [(⟨"Field1", some "field1"⟩, .vptr (some (.vstr "foo"))),
     (⟨"Field2", some "field2"⟩, .vptr (some (.vint 42)))] ["Field2"] (by decide)
  simpa [containsField, goZero] using this

/-- C3 (theorem): for a spec consisting only of Leaf entries whose fields
all exist and carry `json` tags (with pairwise distinct wire names, as the
uniqueness invariant of a result map requires), `Serialize` returns exactly
the map sending each wire name to the corresponding field value: its key
list is the list of wire names and the lookup of each wire name is the
field's value.  `entries` lists each requested field as
(Go name, wire name, value). -/
theorem serialize_leaf_fields_spec (flds : List (FieldMeta × GoVal))
    (entries : List (String × String × GoVal))
    (h : ∀ e ∈ entries, fieldByName flds e.1 = some (⟨e.1, some e.2.1⟩, e.2.2))
    (hnd : (entries.map (fun e => e.2.1)).Nodup) :
    Serialize (.vptr (some (.vstruct flds))) (entries.map (fun e => SpecEntry.leaf e.1))
      = .ok (entries.map (fun e => (e.2.1, ResVal.prim e.2.2)))
    ∧ (entries.map (fun e => (e.2.1, ResVal.prim e.2.2))).map Prod.fst
        = entries.map (fun e => e.2.1)
    ∧ ∀ e ∈ entries,
        mapGet (entries.map (fun e => (e.2.1, ResVal.prim e.2.2))) e.2.1
          = some (.prim e.2.2) := by
  refine ⟨?_, by simp, ?_⟩
  · rw [Serialize]
    simp only [goIsNil, goElem, Bind.bind, Except.bind, Option.isNone, Bool.false_eq_true,
      if_false, ite_false]
    simpa using serializeEntries_leaves _ flds entries [] h (by simp) hnd
  · intro e he
    apply mapGet_of_mem
    · simpa [List.map_map, Function.comp] using hnd
    · exact List.mem_map.mpr ⟨e, he, rfl⟩

/-- C3 (witness): the concrete scenario of `TestSerializeFullStruct`:
`Field1:"foo"` tagged `field1` and `Field2:42` tagged `field2`, spec
`["Field1", "Field2"]`. -/
theorem serialize_leaf_fields_spec_witness :
    Serialize
        (.vptr (some (.vstruct
          [(⟨"Field1", some "field1"⟩, .vstr "foo"), (⟨"Field2", some "field2"⟩, .vint 42)])))
        [.leaf "Field1", .leaf "Field2"]
      = .ok [("field1", .prim (.vstr "foo")), ("field2", .prim (.vint 42))] := by
  have := (serialize_leaf_fields_spec
    [(⟨"Field1", some "field1"⟩, .vstr "foo"), (⟨"Field2", some "field2"⟩, .vint 42)]
    [("Field1", "field1", .vstr "foo"), ("Field2", "field2", .vint 42)]
    (by
      intro e he
      simp only [List.mem_cons, List.not_mem_nil, or_false] at he
      rcases he with h | h <;> subst h <;> rfl)
    (by simp)).1
  simpa using this

/-- C4 (theorem): when `SerializeList` succeeds, its result has exactly one
element per input record, in order, and the i-th output equals `Serialize`
of the i-th input with the same spec.  (When `Serialize` panics on some
element, `SerializeList` propagates that panic, so success of the list call
is the hypothesis.) -/
theorem serializeList_pointwise (R : List GoVal) (s : List SpecEntry) (l : List ProjRes)
    (h : SerializeList R s = .ok l) :
    l.length = R.length ∧
      ∀ i, i < R.length → Serialize (R.getD i GoVal.vnil) s = .ok (l.getD i []) := by
  induction R generalizing l with
  | nil =>
    rw [SerializeList] at h
    cases h
    simp
  | cons r rest ih =>
    rw [SerializeList] at h
    cases hr : Serialize r s with
    | error err => simp [hr, Bind.bind, Except.bind] at h
    | ok r0 =>
      cases hrest : SerializeList rest s with
      | error err => simp [hr, hrest, Bind.bind, Except.bind] at h
      | ok rs =>
        simp [hr, hrest, Bind.bind, Except.bind, Pure.pure, Except.pure] at h
        subst h
        obtain ⟨hlen, hpt⟩ := ih rs hrest
        refine ⟨by simp [hlen], ?_⟩
        intro i hi
        cases i with
        | zero => simpa using hr
        | succ j =>
          simp only [List.getD_cons_succ]
          exact hpt j (by simpa using hi)

/-- C4 (witness): the scenario of `TestSerializeListFullStruct`, projected
to the length equation. -/
theorem serializeList_pointwise_witness :
    ([[("field1", ResVal.prim (GoVal.vstr "foo"))]] : List ProjRes).length
      = [GoVal.vptr (some (.vstruct [(⟨"Field1", some "field1"⟩, .vstr "foo")]))].length :=
  (serializeList_pointwise
    [.vptr (some (.vstruct [(⟨"Field1", some "field1"⟩, .vstr "foo")]))]
    [.leaf "Field1"] [[("field1", .prim (.vstr "foo"))]]
    (by simp [SerializeList, Serialize, goIsNil, goElem, serializeEntries, serializeEntry,
      serializeStrField, fieldByName, getSerializedName, mapSet,
      Bind.bind, Except.bind, Pure.pure, Except.pure, Except.map, List.find?])).1

/-- C7 (counterexample): the kind switch of the nested branch accepts every
slice-kind field without inspecting its element type.  A field of declared
type `[]string` - not a sequence of pointer-to-record - with an empty value
serializes successfully (to an empty sequence), and with element `"a"` it
panics in the recursive nil check, not with the unsupported-kind panic; in
neither case does the claimed `UnsupportedNestedKind` violation occur. -/
theorem serialize_nested_non_record_slice :
    Serialize (.vptr (some (.vstruct [(⟨"Field1", some "field"⟩, .vslice (some []))])))
        [.nested [("Field1", [])]]
      = .ok [("field", .arr [])]
    ∧ Serialize
        (.vptr (some (.vstruct [(⟨"Field1", some "field"⟩, .vslice (some [.vstr "a"]))])))
        [.nested [("Field1", [])]]
      = .error .isNilPanic := by
  constructor <;>
    simp [Serialize, goIsNil, goElem, serializeEntries, serializeEntry, serializeNestedPairs,
      serializeArrayField, serializeElems, fieldByName, getSerializedName, mapSet,
      Bind.bind, Except.bind, Pure.pure, Except.pure, List.find?]

/-- C7 (amended theorem): a Nested entry targeting an existing, tagged
field whose kind is none of slice, array, pointer or struct (e.g. a keyed
dictionary, a primitive, or the untyped nil of an interface field) makes
`Serialize` fail with the unsupported-kind panic
("Undefined type for serializer. Need to implement it"). -/
theorem serialize_nested_unsupported_kind (flds : List (FieldMeta × GoVal)) (n t : String)
    (v : GoVal) (child : List SpecEntry) (rest : List SpecEntry)
    (hf : fieldByName flds n = some (⟨n, some t⟩, v))
    (hk : nestedKindSupported v = false) :
    Serialize (.vptr (some (.vstruct flds))) (.nested [(n, child)] :: rest)
      = .error .undefinedType := by
  cases v <;> simp_all [Serialize, goIsNil, goElem, serializeEntries, serializeEntry,
    serializeNestedPairs, getSerializedName, nestedKindSupported,
    Bind.bind, Except.bind, Pure.pure, Except.pure]

/-- C7 (witness): the scenario of `TestSerializeFieldWithUnexpectedPassedField`
with a tag added: a `map[string]string` field targeted by a Nested entry. -/
theorem serialize_nested_unsupported_kind_witness :
    Serialize (.vptr (some (.vstruct [(⟨"Field1", some "field"⟩, .vmap (some []))])))
        [.nested [("Field1", [.leaf "Field2"])]]
      = .error .undefinedType :=
  serialize_nested_unsupported_kind [(⟨"Field1", some "field"⟩, .vmap (some []))]
    "Field1" "field" (.vmap (some [])) [.leaf "Field2"] [] rfl (by decide)

/-- C9 (theorem): a Nested entry targeting a tagged slice- or array-kind
field inserts, under the field's wire name, the sequence of per-element
serializations with the child spec: the sequence has the same length as the
source (including zero) and its i-th element is `Serialize` of the i-th
source element, in source order. -/
theorem serialize_nested_sequence_spec (flds : List (FieldMeta × GoVal)) (n t : String)
    (v : GoVal) (es : List GoVal) (child : List SpecEntry) (rs : List ProjRes)
    (hf : fieldByName flds n = some (⟨n, some t⟩, v))
    (hv : v = .vslice (some es) ∨ v = .varr es)
    (hs : serializeElems es child = .ok rs) :
    Serialize (.vptr (some (.vstruct flds))) [.nested [(n, child)]]
      = .ok [(t, .arr (rs.map ResVal.obj))]
    ∧ rs.length = es.length
    ∧ ∀ i, i < es.length → Serialize (es.getD i GoVal.vnil) child = .ok (rs.getD i []) := by
  obtain ⟨hlen, hpt⟩ := serializeElems_pointwise es child rs hs
  refine ⟨?_, hlen, hpt⟩
  rcases hv with hv | hv <;> subst hv <;>
    simp [Serialize, goIsNil, goElem, serializeEntries, serializeEntry, serializeNestedPairs,
      serializeArrayField, hf, hs, getSerializedName, mapSet,
      Bind.bind, Except.bind, Pure.pure, Except.pure]

/-- C9 (witness): the scenario of `TestSerializeFieldWithArrayOfStructs`: a
2-element array of pointers to structs with boolean payloads `true` and
`false`, projected through child spec `["FieldNested"]`. -/
theorem serialize_nested_sequence_spec_witness :
    Serialize
        (.vptr (some (.vstruct [(⟨"Field1", some "field"⟩, .varr
          [.vptr (some (.vstruct [(⟨"FieldNested", some "fieldNested"⟩, .vbool true)])),
           .vptr (some (.vstruct [(⟨"FieldNested", some "fieldNested"⟩, .vbool false)]))])])))
        [.nested [("Field1", [.leaf "FieldNested"])]]
      = .ok [("field", .arr
          [.obj [("fieldNested", .prim (.vbool true))],
           .obj [("fieldNested", .prim (.vbool false))]])] := by
  have := (serialize_nested_sequence_spec
    [(⟨"Field1", some "field"⟩, .varr
      [.vptr (some (.vstruct [(⟨"FieldNested", some "fieldNested"⟩, .vbool true)])),
       .vptr (some (.vstruct [(⟨"FieldNested", some "fieldNested"⟩, .vbool false)]))])]
    "Field1" "field"
    (.varr
      [.vptr (some (.vstruct [(⟨"FieldNested", some "fieldNested"⟩, .vbool true)])),
       .vptr (some (.vstruct [(⟨"FieldNested", some "fieldNested"⟩, .vbool false)]))])
    [.vptr (some (.vstruct [(⟨"FieldNested", some "fieldNested"⟩, .vbool true)])),
     .vptr (some (.vstruct [(⟨"FieldNested", some "fieldNested"⟩, .vbool false)]))]
    [.leaf "FieldNested"]
    [[("fieldNested", .prim (.vbool true))], [("fieldNested", .prim (.vbool false))]]
    rfl (Or.inr rfl)
    (by simp [serializeElems, Serialize, goIsNil, goElem, serializeEntries, serializeEntry,
      serializeStrField, fieldByName, getSerializedName, mapSet,
      Bind.bind, Except.bind, Pure.pure, Except.pure, Except.map, List.find?])).1
  simpa using this

end ModelSerializer
